import Mathlib

/-!
Shallow embedding of the co-author input widget
(`app/src/ui/lib/author-input.tsx`) of a desktop Git client.

The widget maintains an ordered list of authors (resolved or pending),
a keyboard-focus index (`focusedAuthorIndex : number | null` in the
source, hence `Option Int` here, since the source can and does store
`-1` in it), and a free-text field.  List mutation is whole-list
replacement reported through the `onAuthorsUpdated` callback; a step of
the widget is therefore modelled as a new state together with the list
of callback invocations (`emits`) the step performs, in order.

JavaScript conventions carried over faithfully:
  * `username` of a resolved (`known`) author is `string | null` in the
    model layer (`a.username?.toLowerCase()` in the source), hence
    `Option String` here; `undefined === undefined` is `true` in JS and
    `none == none` is `true` here.
  * falsy strings (`''`) drive the `user.name || user.username` and
    `user.email && user.email.length > 0` fallbacks.
-/

/-- Model of JavaScript `String.prototype.toLowerCase` (character-wise
lowercasing), kept kernel-reducible by mapping over the character list. -/
def toLowerCase (s : String) : String := String.mk (s.data.map Char.toLower)

/-- Model of JavaScript `String.prototype.trim`: strip whitespace from
both ends, kept kernel-reducible by working on the character list. -/
def trimString (s : String) : String :=
  String.mk (((s.data.dropWhile Char.isWhitespace).reverse.dropWhile Char.isWhitespace).reverse)

inductive UnknownAuthorState
  | searching
  | error
deriving DecidableEq

/-- The `Author` tagged union from `app/src/models/author.ts`:
`KnownAuthor {kind:'known', name, email, username: string | null}` or
`UnknownAuthor {kind:'unknown', username: string, state}`. -/
inductive Author
  | known (name : String) (email : String) (username : Option String)
  | unknown (username : String) (state : UnknownAuthorState)
deriving DecidableEq

def isKnownAuthor : Author → Bool
  | Author.known _ _ _ => true
  | Author.unknown _ _ => false

/-- The `username` accessor shared by both `Author` variants (`a.username`
in the source; `Option` because a known author's username may be null). -/
def Author.username : Author → Option String
  | Author.known _ _ u => u
  | Author.unknown u _ => some u

/-- `KnownUserHit` from the autocompletion provider: a known directory
identity with username, display name, (possibly empty) public email and
originating endpoint.  Empty string stands for JS null/empty. -/
structure KnownUserHit where
  username : String
  name : String
  email : String
  endpoint : String
deriving DecidableEq

/-- `UserHit = KnownUserHit | UnknownUserHit` (`kind: 'known-user'` vs
`kind: 'unknown-user'`). -/
inductive UserHit
  | knownUser (hit : KnownUserHit)
  | unknownUser (username : String)
deriving DecidableEq

def UserHit.username : UserHit → String
  | UserHit.knownUser h => h.username
  | UserHit.unknownUser u => u

/-- Modelled from the spec: `getLegacyStealthEmailForUser` lives in
`app/src/lib/email.ts`, which is not among the reviewed sources.  The
spec requires only "a deterministically derived placeholder email keyed
by username and the identity provider's endpoint", so any deterministic
function of exactly those two arguments is a faithful model. -/
def getLegacyStealthEmailForUser (username : String) (endpoint : String) : String :=
  username ++ "@stealth." ++ endpoint

/-- `getEmailAddressForUser`: the profile's public email when non-empty,
otherwise the stealth placeholder
(`user.email && user.email.length > 0 ? user.email : getLegacyStealthEmailForUser(...)`). -/
def getEmailAddressForUser (user : KnownUserHit) : String :=
  if user.email.length > 0 then user.email
  else getLegacyStealthEmailForUser user.username user.endpoint

/-- `authorFromUserHit`: convert a known-user hit into a `KnownAuthor`
(`name: user.name || user.username`, `email: getEmailAddressForUser(user)`). -/
def authorFromUserHit (user : KnownUserHit) : Author :=
  Author.known
    (if user.name.isEmpty then user.username else user.name)
    (getEmailAddressForUser user)
    (some user.username)

/-- `getAutocompleteItemFilter` (memoization dropped, it does not change
the function's value): admit every non-`known-user` item; admit a
`known-user` item unless some author's username strictly equals
(`===`, case-sensitive) the item's username. -/
def getAutocompleteItemFilter (authors : List Author) (item : UserHit) : Bool :=
  match item with
  | UserHit.unknownUser _ => true
  | UserHit.knownUser hit =>
    let usernames := authors.map Author.username
    ! usernames.any (fun u => u == some hit.username)

/-- Component state: the author list (owned by the caller, echoed back
through `onAuthorsUpdated`; the echo is modelled as an immediate update
of `authors`), the focused-token index (`number | null`), and the
free-text field's value and caret position. -/
structure WidgetState where
  authors : List Author
  focusedAuthorIndex : Option Int
  fieldValue : String
  selectionStart : Nat
deriving DecidableEq

/-- A step outcome: the new state plus the arguments of the
`onAuthorsUpdated` callback invocations the step performed, in order. -/
structure StepResult where
  state : WidgetState
  emits : List (List Author)
deriving DecidableEq

/-- `focusAuthorHandle(index)`: records the index in component state.
(The DOM focus side effect is out of scope; note the source stores the
index unvalidated, so `-1` can be recorded.) -/
def focusAuthorHandle (st : WidgetState) (index : Option Int) : WidgetState :=
  { st with focusedAuthorIndex := index }

/-- `removeAuthor(index)`: bounds-checked removal; on success removes the
entry, refocuses (`null` when the last entry was removed, otherwise the
same index) and emits the new list; otherwise does nothing. -/
def removeAuthor (st : WidgetState) (index : Int) : StepResult :=
  if 0 ≤ index ∧ index < (st.authors.length : Int) then
    let i := index.toNat
    let newAuthors := st.authors.take i ++ st.authors.drop (i + 1)
    let newFocus : Option Int :=
      if index = (st.authors.length : Int) - 1 then none else some index
    StepResult.mk (focusAuthorHandle { st with authors := newAuthors } newFocus) [newAuthors]
  else
    StepResult.mk st []

/-- `focusPreviousAuthor`: from the free-text field (`null`) focus
`authors.length - 1` (which is `-1` when the list is empty — the source
passes it to `focusAuthorHandle` unconditionally); from token `i > 0`
focus `i - 1`; from token `0` do nothing. -/
def focusPreviousAuthor (st : WidgetState) : WidgetState :=
  match st.focusedAuthorIndex with
  | none => focusAuthorHandle st (some ((st.authors.length : Int) - 1))
  | some i => if 0 < i then focusAuthorHandle st (some (i - 1)) else st

/-- The per-entry predicate of `updateUnknownAuthor`:
`a.username?.toLowerCase() === author.username?.toLowerCase() && !isKnownAuthor(a)`. -/
def matchesUnknown (a : Author) (author : Author) : Bool :=
  (a.username.map toLowerCase == author.username.map toLowerCase) &&
    ! isKnownAuthor a

/-- The pure list transform inside `updateUnknownAuthor`: replace every
non-known entry whose username matches case-insensitively by `author`. -/
def updateUnknownAuthor (authors : List Author) (author : Author) : List Author :=
  authors.map (fun a => if matchesUnknown a author then author else a)

/-- `updateUnknownAuthor` as a component step: apply the transform to the
current list and emit the result (unconditionally). -/
def updateUnknownAuthorStep (st : WidgetState) (author : Author) : StepResult :=
  let newAuthors := updateUnknownAuthor st.authors author
  StepResult.mk { st with authors := newAuthors } [newAuthors]

/-- The de-duplication probe at the top of `attemptUnknownAuthorSearch`:
`authors.filter(isKnownAuthor).find(a => a.username?.toLowerCase() === username.toLowerCase())`. -/
def findKnownMatch (authors : List Author) (username : String) : Option Author :=
  (authors.filter isKnownAuthor).find?
    (fun a => a.username.map toLowerCase == some (toLowerCase username))

/-- The author produced once the provider's `exactMatch` has answered:
a `KnownAuthor` derived from a known-user hit, otherwise (`null` hit or
non-known-user hit) the original unknown author with `state: 'error'`
(`{...author, state: 'error'}`). -/
def resolutionAuthor (username : String) (hit : Option UserHit) : Author :=
  match hit with
  | some (UserHit.knownUser h) => authorFromUserHit h
  | _ => Author.unknown username UnknownAuthorState.error

/-- `attemptUnknownAuthorSearch(author)` for an unknown author with the
given username.  The provider's `exactMatch` is passed as a function; the
returned Bool records whether a lookup call was issued.  (In the source
the lookup branch is asynchronous; the claims about its completion are
stated over `updateUnknownAuthor` directly, which is what runs against
whatever the list is at completion time.) -/
def attemptUnknownAuthorSearch (exactMatch : String → Option UserHit)
    (st : WidgetState) (username : String) : StepResult × Bool :=
  match findKnownMatch st.authors username with
  | some knownAuthor => (updateUnknownAuthorStep st knownAuthor, false)
  | none =>
    (updateUnknownAuthorStep st (resolutionAuthor username (exactMatch username)), true)

/-- `onAutocompleteItemSelected(item)`: append the derived author, emit
the new list, clear the free-text field.  (The asynchronous
`attemptUnknownAuthorSearch` it fires for unknown authors is modelled as
its own step above.) -/
def onAutocompleteItemSelected (st : WidgetState) (item : UserHit) : StepResult :=
  let authorToAdd : Author :=
    match item with
    | UserHit.knownUser h => authorFromUserHit h
    | UserHit.unknownUser u => Author.unknown u UnknownAuthorState.searching
  let newAuthors := st.authors ++ [authorToAdd]
  StepResult.mk { st with authors := newAuthors, fieldValue := "", selectionStart := 0 } [newAuthors]

inductive Key
  | backspace
  | arrowLeft
  | space
  | other
deriving DecidableEq

/-- `onInputKeyDown` on the free-text field: Backspace at caret 0 removes
the last token (`removeAuthor(authors.length - 1)`); ArrowLeft at caret 0
runs `focusPreviousAuthor`; Space at end-of-field commits the trimmed
value when non-empty.  The three source `if`s test distinct keys, so a
`match` is equivalent. -/
def onInputKeyDown (st : WidgetState) (key : Key) : StepResult :=
  match key with
  | Key.backspace =>
    if st.selectionStart = 0 then removeAuthor st ((st.authors.length : Int) - 1)
    else StepResult.mk st []
  | Key.arrowLeft =>
    if st.selectionStart = 0 then StepResult.mk (focusPreviousAuthor st) []
    else StepResult.mk st []
  | Key.space =>
    if st.selectionStart = st.fieldValue.length then
      if (trimString st.fieldValue).length ≠ 0 then
        onAutocompleteItemSelected st (UserHit.unknownUser (trimString st.fieldValue))
      else StepResult.mk st []
    else StepResult.mk st []
  | Key.other => StepResult.mk st []

/-! ## Helper lemmas about the resolution transform -/

theorem matchesUnknown_eq_true (a r : Author) :
    matchesUnknown a r = true ↔
      (a.username.map toLowerCase = r.username.map toLowerCase ∧
        isKnownAuthor a = false) := by
  simp [matchesUnknown]

theorem updateUnknownAuthor_eq_map (authors : List Author) (r : Author) :
    updateUnknownAuthor authors r =
      authors.map (fun a =>
        if a.username.map toLowerCase = r.username.map toLowerCase ∧
            isKnownAuthor a = false
        then r else a) := by
  unfold updateUnknownAuthor
  refine List.map_congr_left fun a _ => ?_
  by_cases h : a.username.map toLowerCase = r.username.map toLowerCase ∧
      isKnownAuthor a = false
  · rw [if_pos ((matchesUnknown_eq_true a r).mpr h), if_pos h]
  · rw [if_neg (fun hh => h ((matchesUnknown_eq_true a r).mp hh)), if_neg h]

theorem updateUnknownAuthor_stale (authors : List Author) (r : Author)
    (h : ∀ a ∈ authors, isKnownAuthor a = true ∨
        ¬ a.username.map toLowerCase = r.username.map toLowerCase) :
    updateUnknownAuthor authors r = authors := by
  induction authors with
  | nil => rfl
  | cons a t ih =>
    have ha : matchesUnknown a r = false := by
      rcases h a (List.mem_cons_self a t) with hk | hn
      · simp [matchesUnknown, hk]
      · simp [matchesUnknown, hn]
    have ht := ih (fun b hb => h b (List.mem_cons_of_mem a hb))
    simp only [updateUnknownAuthor, List.map_cons] at ht ⊢
    rw [ht, ha]
    simp

/-- C2: when an exact-match resolution completes, the transform replaces
every non-known entry whose username matches the replacement author
case-insensitively — by the `KnownAuthor` derived from the hit when the
lookup returned a known-identity result, by `UnknownAuthor{state: error}`
when it returned no hit or a non-known-identity result — and entries that
are already `KnownAuthor` are never modified (the replacement condition
requires `isKnownAuthor a = false`). -/
theorem C2_resolution_transform (authors : List Author) (username : String)
    (hit : Option UserHit) :
    (∀ h : KnownUserHit, hit = some (UserHit.knownUser h) →
        resolutionAuthor username hit = authorFromUserHit h ∧
        isKnownAuthor (resolutionAuthor username hit) = true) ∧
    ((hit = none ∨ ∃ u, hit = some (UserHit.unknownUser u)) →
        resolutionAuthor username hit =
          Author.unknown username UnknownAuthorState.error) ∧
    updateUnknownAuthor authors (resolutionAuthor username hit) =
      authors.map (fun a =>
        if a.username.map toLowerCase =
              (resolutionAuthor username hit).username.map toLowerCase ∧
            isKnownAuthor a = false
        then resolutionAuthor username hit
        else a) := by
  refine ⟨?_, ?_, updateUnknownAuthor_eq_map authors _⟩
  · rintro h rfl
    exact ⟨rfl, rfl⟩
  · rintro (rfl | ⟨u, rfl⟩) <;> rfl

/-- C2 witness at a concrete input. -/
theorem C2_resolution_transform_witness :
    resolutionAuthor "amy"
        (some (UserHit.knownUser (KnownUserHit.mk "amy" "Amy" "amy@x" "e"))) =
      authorFromUserHit (KnownUserHit.mk "amy" "Amy" "amy@x" "e") ∧
    updateUnknownAuthor
        [Author.unknown "amy" UnknownAuthorState.searching,
         Author.known "Bob" "b@x" (some "bob")]
        (resolutionAuthor "amy"
          (some (UserHit.knownUser (KnownUserHit.mk "amy" "Amy" "amy@x" "e")))) =
      [Author.unknown "amy" UnknownAuthorState.searching,
       Author.known "Bob" "b@x" (some "bob")].map (fun a =>
        if a.username.map toLowerCase =
              (resolutionAuthor "amy"
                (some (UserHit.knownUser
                  (KnownUserHit.mk "amy" "Amy" "amy@x" "e")))).username.map toLowerCase ∧
            isKnownAuthor a = false
        then resolutionAuthor "amy"
              (some (UserHit.knownUser (KnownUserHit.mk "amy" "Amy" "amy@x" "e")))
        else a) :=
  ⟨((C2_resolution_transform
      [Author.unknown "amy" UnknownAuthorState.searching,
       Author.known "Bob" "b@x" (some "bob")] "amy"
      (some (UserHit.knownUser (KnownUserHit.mk "amy" "Amy" "amy@x" "e")))).1
      (KnownUserHit.mk "amy" "Amy" "amy@x" "e") rfl).1,
   (C2_resolution_transform
      [Author.unknown "amy" UnknownAuthorState.searching,
       Author.known "Bob" "b@x" (some "bob")] "amy"
      (some (UserHit.knownUser (KnownUserHit.mk "amy" "Amy" "amy@x" "e")))).2.2⟩

/-- C5: a resolution response whose username no longer matches any
non-known entry of the current list (each entry is either already known
or has a case-insensitively different username) leaves the list
element-wise unchanged; the transform is a total function, so it cannot
throw. -/
theorem C5_stale_resolution_noop (authors : List Author) (r : Author)
    (h : ∀ a ∈ authors, isKnownAuthor a = true ∨
        ¬ a.username.map toLowerCase = r.username.map toLowerCase) :
    updateUnknownAuthor authors r = authors :=
  updateUnknownAuthor_stale authors r h

/-- C5 witness at a concrete input. -/
theorem C5_stale_resolution_noop_witness :
    updateUnknownAuthor
        [Author.known "Amy" "amy@x" (some "amy"),
         Author.unknown "bob" UnknownAuthorState.searching]
        (Author.unknown "carl" UnknownAuthorState.error) =
      [Author.known "Amy" "amy@x" (some "amy"),
       Author.unknown "bob" UnknownAuthorState.searching] :=
  C5_stale_resolution_noop
    [Author.known "Amy" "amy@x" (some "amy"),
     Author.unknown "bob" UnknownAuthorState.searching]
    (Author.unknown "carl" UnknownAuthorState.error) (by decide)

/-- C10: the `updateUnknownAuthor` step always performs exactly one
`onAuthorsUpdated` invocation, carrying the freshly built transformed
list — and when no entry of the current list matches the resolved
username, that emitted list is element-wise equal to the previous one,
so a stale resolution shows up as a redundant callback rather than as
silence. -/
theorem C10_redundant_callback (st : WidgetState) (r : Author) :
    (updateUnknownAuthorStep st r).emits = [updateUnknownAuthor st.authors r] ∧
    ((∀ a ∈ st.authors, isKnownAuthor a = true ∨
        ¬ a.username.map toLowerCase = r.username.map toLowerCase) →
      (updateUnknownAuthorStep st r).emits = [st.authors]) := by
  refine ⟨rfl, fun h => ?_⟩
  simp only [updateUnknownAuthorStep, updateUnknownAuthor_stale st.authors r h]

/-- C10 witness at a concrete input. -/
theorem C10_redundant_callback_witness :
    (updateUnknownAuthorStep
        (WidgetState.mk [Author.known "Amy" "amy@x" (some "amy")] none "" 0)
        (Author.unknown "bob" UnknownAuthorState.error)).emits =
      [[Author.known "Amy" "amy@x" (some "amy")]] :=
  (C10_redundant_callback
      (WidgetState.mk [Author.known "Amy" "amy@x" (some "amy")] none "" 0)
      (Author.unknown "bob" UnknownAuthorState.error)).2 (by decide)

/-- C1: when the current list already holds a known (resolved) author
whose username matches the pending token's username case-insensitively,
`attemptUnknownAuthorSearch` issues no exact-match lookup (the issued
flag is `false` and the outcome does not depend on the provider at all),
and that existing resolved identity `k` is copied verbatim onto every
matching pending (non-known) entry of the list, which is then emitted. -/
theorem C1_dedup_no_lookup (em : String → Option UserHit) (st : WidgetState)
    (username : String) (k : Author)
    (hfind : findKnownMatch st.authors username = some k) :
    (attemptUnknownAuthorSearch em st username).2 = false ∧
    (∀ em2 : String → Option UserHit,
        attemptUnknownAuthorSearch em2 st username =
          attemptUnknownAuthorSearch em st username) ∧
    isKnownAuthor k = true ∧ k ∈ st.authors ∧
    k.username.map toLowerCase = some (toLowerCase username) ∧
    (attemptUnknownAuthorSearch em st username).1.state.authors =
      st.authors.map (fun a =>
        if a.username.map toLowerCase = some (toLowerCase username) ∧
            isKnownAuthor a = false
        then k else a) ∧
    (attemptUnknownAuthorSearch em st username).1.emits =
      [(attemptUnknownAuthorSearch em st username).1.state.authors] := by
  have hfind0 : (st.authors.filter isKnownAuthor).find?
      (fun a => a.username.map toLowerCase == some (toLowerCase username)) = some k := by
    simpa [findKnownMatch] using hfind
  have hk1 := List.find?_some hfind0
  simp only [beq_iff_eq] at hk1
  have hkeq : k.username.map toLowerCase = some (toLowerCase username) := hk1
  have hkfil := List.mem_filter.mp (List.mem_of_find?_eq_some hfind0)
  have happ : ∀ em2 : String → Option UserHit,
      attemptUnknownAuthorSearch em2 st username = (updateUnknownAuthorStep st k, false) :=
    fun em2 => by simp only [attemptUnknownAuthorSearch, hfind]
  refine ⟨by rw [happ em], fun em2 => (happ em2).trans (happ em).symm,
    hkfil.2, hkfil.1, hkeq, ?_, by rw [happ em]; rfl⟩
  rw [happ em]
  show updateUnknownAuthor st.authors k = _
  rw [updateUnknownAuthor_eq_map]
  simp only [hkeq]

/-- C1 witness at a concrete input. -/
theorem C1_dedup_no_lookup_witness :
    (attemptUnknownAuthorSearch (fun _ => none)
        (WidgetState.mk
          [Author.known "Amy" "amy@x" (some "Amy"),
           Author.unknown "amy" UnknownAuthorState.searching] none "" 0) "amy").2 =
      false ∧
    (attemptUnknownAuthorSearch (fun _ => none)
        (WidgetState.mk
          [Author.known "Amy" "amy@x" (some "Amy"),
           Author.unknown "amy" UnknownAuthorState.searching] none "" 0)
        "amy").1.state.authors =
      (WidgetState.mk
          [Author.known "Amy" "amy@x" (some "Amy"),
           Author.unknown "amy" UnknownAuthorState.searching] none "" 0).authors.map
        (fun a =>
          if a.username.map toLowerCase = some (toLowerCase "amy") ∧
              isKnownAuthor a = false
          then Author.known "Amy" "amy@x" (some "Amy") else a) :=
  ⟨(C1_dedup_no_lookup (fun _ => none)
      (WidgetState.mk
        [Author.known "Amy" "amy@x" (some "Amy"),
         Author.unknown "amy" UnknownAuthorState.searching] none "" 0) "amy"
      (Author.known "Amy" "amy@x" (some "Amy")) (by decide)).1,
   (C1_dedup_no_lookup (fun _ => none)
      (WidgetState.mk
        [Author.known "Amy" "amy@x" (some "Amy"),
         Author.unknown "amy" UnknownAuthorState.searching] none "" 0) "amy"
      (Author.known "Amy" "amy@x" (some "Amy")) (by decide)).2.2.2.2.2.1⟩

/-- C3: committing a token — through `onAutocompleteItemSelected`
directly, or through the trailing-space heuristic of `onInputKeyDown`
when the caret sits at the end of the field and the trimmed value is
non-empty — appends exactly one author at the end of the list (an
`UnknownAuthor{state: searching}` when the input is not a known
identity), performs exactly one `onAuthorsUpdated` invocation carrying
the full new list, and clears the free-text field. -/
theorem C3_commit_appends_one (st : WidgetState) (item : UserHit) :
    (∃ a : Author,
      (onAutocompleteItemSelected st item).state.authors = st.authors ++ [a] ∧
      (∀ h : KnownUserHit, item = UserHit.knownUser h → a = authorFromUserHit h) ∧
      (∀ u : String, item = UserHit.unknownUser u →
          a = Author.unknown u UnknownAuthorState.searching)) ∧
    (onAutocompleteItemSelected st item).state.authors.length =
      st.authors.length + 1 ∧
    (onAutocompleteItemSelected st item).emits =
      [(onAutocompleteItemSelected st item).state.authors] ∧
    (onAutocompleteItemSelected st item).state.fieldValue = "" ∧
    (st.selectionStart = st.fieldValue.length →
      (trimString st.fieldValue).length ≠ 0 →
      onInputKeyDown st Key.space =
        onAutocompleteItemSelected st (UserHit.unknownUser (trimString st.fieldValue))) := by
  refine ⟨?_, by simp [onAutocompleteItemSelected], rfl, rfl, fun hsel htrim => ?_⟩
  · cases item with
    | knownUser h =>
      refine ⟨authorFromUserHit h, rfl, ?_, ?_⟩
      · intro h2 hh
        injection hh with h3
        rw [h3]
      · intro u hu
        exact UserHit.noConfusion hu
    | unknownUser u =>
      refine ⟨Author.unknown u UnknownAuthorState.searching, rfl, ?_, ?_⟩
      · intro h2 hh
        exact UserHit.noConfusion hh
      · intro u2 hu
        injection hu with h3
        rw [h3]
  · simp only [onInputKeyDown, if_pos hsel, if_pos htrim]

/-- C3 witness at a concrete input. -/
theorem C3_commit_appends_one_witness :
    (onAutocompleteItemSelected
        (WidgetState.mk [] none "bob " 4) (UserHit.unknownUser "bob")).state.authors.length =
      0 + 1 ∧
    (onAutocompleteItemSelected
        (WidgetState.mk [] none "bob " 4) (UserHit.unknownUser "bob")).state.fieldValue = "" ∧
    onInputKeyDown (WidgetState.mk [] none "bob " 4) Key.space =
      onAutocompleteItemSelected (WidgetState.mk [] none "bob " 4)
        (UserHit.unknownUser (trimString "bob ")) :=
  ⟨(C3_commit_appends_one (WidgetState.mk [] none "bob " 4)
      (UserHit.unknownUser "bob")).2.1,
   (C3_commit_appends_one (WidgetState.mk [] none "bob " 4)
      (UserHit.unknownUser "bob")).2.2.2.1,
   (C3_commit_appends_one (WidgetState.mk [] none "bob " 4)
      (UserHit.unknownUser "bob")).2.2.2.2 (by decide) (by decide)⟩

/-- C4: `removeAuthor` is bounds-checked — it is a strict no-op (same
state, no callback) when the index is out of range — and for an in-range
index `i` into a list of length `n` it produces the list with entry `i`
deleted (order preserved: the prefix before `i` and the suffix after `i`
are kept), of length `n - 1`, emits exactly that list once, and sets the
focus to none when `i = n - 1`, otherwise to `i`, which now points at
the element that slid into slot `i`. -/
theorem C4_removeAuthor (st : WidgetState) (index : Int) :
    (¬ (0 ≤ index ∧ index < (st.authors.length : Int)) →
        removeAuthor st index = StepResult.mk st []) ∧
    ((0 ≤ index ∧ index < (st.authors.length : Int)) →
      (removeAuthor st index).state.authors =
        st.authors.take index.toNat ++ st.authors.drop (index.toNat + 1) ∧
      (removeAuthor st index).state.authors.length = st.authors.length - 1 ∧
      (removeAuthor st index).emits = [(removeAuthor st index).state.authors] ∧
      (removeAuthor st index).state.focusedAuthorIndex =
        (if index = (st.authors.length : Int) - 1 then none else some index) ∧
      (index < (st.authors.length : Int) - 1 →
        (removeAuthor st index).state.authors.get? index.toNat =
          st.authors.get? (index.toNat + 1))) := by
  constructor
  · intro h
    simp only [removeAuthor, if_neg h]
  · intro h
    have hlt : index.toNat < st.authors.length := by omega
    have hre : removeAuthor st index =
        StepResult.mk
          (WidgetState.mk
            (st.authors.take index.toNat ++ st.authors.drop (index.toNat + 1))
            (if index = (st.authors.length : Int) - 1 then none else some index)
            st.fieldValue st.selectionStart)
          [st.authors.take index.toNat ++ st.authors.drop (index.toNat + 1)] := by
      simp [removeAuthor, if_pos h, focusAuthorHandle]
    rw [hre]
    have htake : (st.authors.take index.toNat).length = index.toNat := by
      simp only [List.length_take]
      omega
    refine ⟨rfl, ?_, rfl, rfl, fun hidx => ?_⟩
    · simp only [List.length_append, List.length_take, List.length_drop]
      omega
    · show (st.authors.take index.toNat ++
          st.authors.drop (index.toNat + 1)).get? index.toNat = _
      rw [List.get?_append_right (by omega), htake, Nat.sub_self, List.get?_drop]

/-- C4 witness at a concrete input. -/
theorem C4_removeAuthor_witness :
    (removeAuthor
        (WidgetState.mk
          [Author.unknown "amy" UnknownAuthorState.searching,
           Author.known "Bob" "b@x" (some "bob")] none "" 0) 0).state.authors =
      [Author.unknown "amy" UnknownAuthorState.searching,
       Author.known "Bob" "b@x" (some "bob")].take 0 ++
      [Author.unknown "amy" UnknownAuthorState.searching,
       Author.known "Bob" "b@x" (some "bob")].drop 1 ∧
    (removeAuthor
        (WidgetState.mk [Author.unknown "amy" UnknownAuthorState.searching] none "" 0)
        5) =
      StepResult.mk
        (WidgetState.mk [Author.unknown "amy" UnknownAuthorState.searching] none "" 0)
        [] :=
  ⟨((C4_removeAuthor
      (WidgetState.mk
        [Author.unknown "amy" UnknownAuthorState.searching,
         Author.known "Bob" "b@x" (some "bob")] none "" 0) 0).2 (by decide)).1,
   (C4_removeAuthor
      (WidgetState.mk [Author.unknown "amy" UnknownAuthorState.searching] none "" 0)
      5).1 (by decide)⟩

/-- C6 counterexample: with an empty author list and focus on the
free-text field (`focusedAuthorIndex = none`), ArrowLeft at caret 0 does
NOT leave the focus state unchanged: `focusPreviousAuthor` passes
`authors.length - 1 = -1` to `focusAuthorHandle`, which stores it, so
the resulting focus state is `some (-1)` — neither "none" nor a valid
index into the (empty) list. -/
theorem C6_counterexample :
    (onInputKeyDown (WidgetState.mk [] none "" 0) Key.arrowLeft).state.focusedAuthorIndex =
      some (-1) ∧
    some (-1) ≠ (none : Option Int) ∧
    ¬ (0 ≤ (-1 : Int) ∧
        (-1 : Int) < (((WidgetState.mk [] none "" 0) : WidgetState).authors.length : Int)) := by
  decide

/-- C6 amended: ArrowLeft at caret 0 from the free-text field sets the
focus index to `authors.length - 1`: with at least one token this
focuses the last token (a valid index), but with an empty list it sets
the focus state to `some (-1)` — an out-of-range sentinel that focuses
no token — rather than leaving it at "none".  The list is unchanged and
no callback fires either way. -/
theorem C6_left_arrow_focus (st : WidgetState)
    (hfoc : st.focusedAuthorIndex = none) (hsel : st.selectionStart = 0) :
    (onInputKeyDown st Key.arrowLeft).state.focusedAuthorIndex =
      some ((st.authors.length : Int) - 1) ∧
    (st.authors ≠ [] →
      0 ≤ (st.authors.length : Int) - 1 ∧
      (st.authors.length : Int) - 1 < (st.authors.length : Int)) ∧
    (st.authors = [] →
      (onInputKeyDown st Key.arrowLeft).state.focusedAuthorIndex = some (-1)) ∧
    (onInputKeyDown st Key.arrowLeft).state.authors = st.authors ∧
    (onInputKeyDown st Key.arrowLeft).emits = [] := by
  have hstep : onInputKeyDown st Key.arrowLeft =
      StepResult.mk (focusAuthorHandle st (some ((st.authors.length : Int) - 1))) [] := by
    simp only [onInputKeyDown, if_pos hsel, focusPreviousAuthor, hfoc]
  rw [hstep]
  refine ⟨rfl, fun hne => ?_, fun hemp => ?_, rfl, rfl⟩
  · have : st.authors.length ≠ 0 := fun hz => hne (List.length_eq_zero.mp hz)
    omega
  · simp [focusAuthorHandle, hemp]

/-- C6 witness at a concrete input (non-empty list: last token focused). -/
theorem C6_left_arrow_focus_witness :
    (onInputKeyDown
        (WidgetState.mk [Author.unknown "amy" UnknownAuthorState.searching] none "" 0)
        Key.arrowLeft).state.focusedAuthorIndex = some (0 + 1 - 1) :=
  (C6_left_arrow_focus
    (WidgetState.mk [Author.unknown "amy" UnknownAuthorState.searching] none "" 0)
    rfl rfl).1

/-- C7 counterexample: an `unknown-user` (free-text) candidate whose
username already appears in the author list is NOT excluded by
`getAutocompleteItemFilter` — the filter admits it — so "every candidate
whose username already appears anywhere in that list is excluded" fails
as stated. -/
theorem C7_counterexample :
    getAutocompleteItemFilter [Author.known "Amy" "amy@x" (some "amy")]
        (UserHit.unknownUser "amy") = true ∧
    UserHit.username (UserHit.unknownUser "amy") = "amy" ∧
    (Author.known "Amy" "amy@x" (some "amy")).username = some "amy" := by
  decide

/-- C7 amended: every KNOWN-USER candidate whose username already
appears (strict string equality) anywhere in the author list is excluded
from the suggestion set; the spec's example holds: with authors
`[{username:"amy"}]` and known-user candidates `["amy","bob"]` the
filtered suggestion set is `["bob"]`.  (Free-text candidates are
admitted unconditionally; see the companion claim on the filter.) -/
theorem C7_known_user_excluded (authors : List Author) (hit : KnownUserHit)
    (hmem : ∃ a ∈ authors, a.username = some hit.username) :
    getAutocompleteItemFilter authors (UserHit.knownUser hit) = false ∧
    [UserHit.knownUser (KnownUserHit.mk "amy" "" "" ""),
     UserHit.knownUser (KnownUserHit.mk "bob" "" "" "")].filter
        (getAutocompleteItemFilter [Author.known "amy" "a@x" (some "amy")]) =
      [UserHit.knownUser (KnownUserHit.mk "bob" "" "" "")] := by
  refine ⟨?_, by decide⟩
  obtain ⟨a, hal, hau⟩ := hmem
  have hany : (authors.map Author.username).any (fun u => u == some hit.username) = true := by
    refine List.any_eq_true.mpr ⟨some hit.username, List.mem_map.mpr ⟨a, hal, hau⟩, ?_⟩
    simp
  simp [getAutocompleteItemFilter, hany]

/-- C7 witness at a concrete input. -/
theorem C7_known_user_excluded_witness :
    getAutocompleteItemFilter [Author.known "amy" "a@x" (some "amy")]
        (UserHit.knownUser (KnownUserHit.mk "amy" "" "" "")) = false :=
  (C7_known_user_excluded [Author.known "amy" "a@x" (some "amy")]
    (KnownUserHit.mk "amy" "" "" "") (by decide)).1

/-! ## String helpers for the falsy-string fallbacks -/

theorem string_eq_empty_of_length_eq_zero (s : String) (hz : s.length = 0) : s = "" := by
  obtain ⟨d⟩ := s
  have hd : d.length = 0 := hz
  rw [List.length_eq_zero.mp hd]

theorem string_length_pos_iff (s : String) : 0 < s.length ↔ ¬ s = "" := by
  constructor
  · intro hl hemp
    rw [hemp] at hl
    exact absurd hl (by decide)
  · intro hne
    rcases Nat.eq_zero_or_pos s.length with hz | hp
    · exact absurd (string_eq_empty_of_length_eq_zero s hz) hne
    · exact hp

theorem authorFromUserHit_fields (h : KnownUserHit) :
    authorFromUserHit h = Author.known
      (if h.name = "" then h.username else h.name)
      (if h.email = "" then getLegacyStealthEmailForUser h.username h.endpoint
       else h.email)
      (some h.username) := by
  unfold authorFromUserHit getEmailAddressForUser
  congr 1
  · by_cases hn : h.name = ""
    · rw [if_pos ((String.isEmpty_iff h.name).mpr hn), if_pos hn]
    · rw [if_neg (fun hc => hn ((String.isEmpty_iff h.name).mp hc)), if_neg hn]
  · by_cases he : h.email = ""
    · rw [if_neg (fun hc => (string_length_pos_iff h.email).mp hc he), if_pos he]
    · rw [if_pos ((string_length_pos_iff h.email).mpr he), if_neg he]

/-- C8: committing a known identity appends a `KnownAuthor` whose name
is the profile display name falling back to the username when the
display name is empty, and whose email is the profile's public email
when non-empty, otherwise the deterministically derived stealth
placeholder keyed by the username and the provider endpoint. -/
theorem C8_known_identity_fields (st : WidgetState) (h : KnownUserHit) :
    (onAutocompleteItemSelected st (UserHit.knownUser h)).state.authors =
      st.authors ++ [Author.known
        (if h.name = "" then h.username else h.name)
        (if h.email = "" then getLegacyStealthEmailForUser h.username h.endpoint
         else h.email)
        (some h.username)] := by
  show st.authors ++ [authorFromUserHit h] = _
  rw [authorFromUserHit_fields]

/-- C9: the suggestion filter admits every non-known-user (free-text)
candidate unconditionally — even when its username already appears in
the author list — and excludes a known-user candidate exactly when some
author's username equals the candidate's username by strict,
case-sensitive string equality; by contrast the resolution matcher
`matchesUnknown` matches the same pair of usernames case-insensitively
(concrete contrast: the list `["amy"]` does not exclude the known-user
candidate `"Amy"` from suggestions, yet resolution treats them as the
same username). -/
theorem C9_filter_case_sensitivity (authors : List Author) (u : String)
    (hit : KnownUserHit) :
    getAutocompleteItemFilter authors (UserHit.unknownUser u) = true ∧
    (getAutocompleteItemFilter authors (UserHit.knownUser hit) = false ↔
      ∃ a ∈ authors, a.username = some hit.username) ∧
    getAutocompleteItemFilter [Author.unknown "amy" UnknownAuthorState.searching]
        (UserHit.knownUser (KnownUserHit.mk "Amy" "" "" "")) = true ∧
    matchesUnknown (Author.unknown "amy" UnknownAuthorState.searching)
        (authorFromUserHit (KnownUserHit.mk "Amy" "" "" "")) = true := by
  refine ⟨rfl, ?_, by decide, by decide⟩
  simp [getAutocompleteItemFilter]
